import Mathlib

/-!
The table cloudflare_custom_hostname: its list and get hydrate functions.

A shallow embedding of `cloudflare/table_cloudflare_custom_hostname.go`.

* Go structs become Lean structures with the same field names (`Type` is
  spelled `Type_`, since `Type` is reserved in Lean).
* Go pointers that may be nil (`*time.Time`, `*CustomHostnameSSL`, `*bool`)
  become `Option`.
* Go `int` is a 64-bit two's-complement integer: it is an `Int` here and the
  one arithmetic operation of the file, `page++`, wraps explicitly (`wrapInt`).
* The API client, `connect` and the framework's row stream are outside the
  file.  The client and `connect` are parameters; every call of the client,
  every streamed row and every logged error is recorded, in program order, in
  a list of `Event`s returned next to the Go return value.
* The `for` loop of `listCustomHostnames` has no bound of its own, so the
  embedding takes fuel: one unit per iteration.  `none` as outcome means that
  the fuel ran out while the loop was still running.
-/

namespace Cloudflare

/-! ## Data model -/

/-- Go `time.Time`, kept abstract as a nanosecond count: the file only copies
pointers to it. -/
structure Time where
  unixNano : Int
  deriving DecidableEq, Repr

/-- The cloudflare-go type `CustomHostnameStatus`, a string-backed enum. -/
structure CustomHostnameStatus where
  val : String
  deriving DecidableEq, Repr

/-- Go conversion `string(status)`. -/
def CustomHostnameStatus.string (s : CustomHostnameStatus) : String := s.val

/-- The settings blob of an SSL configuration (cloudflare-go
`CustomHostnameSSLSettings`). -/
structure CustomHostnameSSLSettings where
  HTTP2 : String
  TLS13 : String
  MinTLSVersion : String
  Ciphers : List String
  deriving DecidableEq, Repr

/-- The cloudflare-go type `CustomHostnameSSL`, with the seven fields that the
table's columns read. -/
structure CustomHostnameSSL where
  ID : String
  Status : String
  Method : String
  Type_ : String
  Wildcard : Option Bool
  CertificateAuthority : String
  Settings : CustomHostnameSSLSettings
  deriving DecidableEq, Repr

/-- The cloudflare-go API object `CustomHostname`, with the fields that the
file reads. -/
structure CustomHostname where
  ID : String
  Hostname : String
  CustomOriginServer : String
  SSL : Option CustomHostnameSSL
  Status : CustomHostnameStatus
  CreatedAt : Option Time
  deriving DecidableEq, Repr

/-- The Go zero value `cloudflare.CustomHostname{}`, passed as the filter of
every list request. -/
def CustomHostname.zero : CustomHostname :=
  { ID := "", Hostname := "", CustomOriginServer := "", SSL := none,
    Status := ⟨""⟩, CreatedAt := none }

/-- The cloudflare-go type `ResultInfo`; the file reads `TotalPages` only. -/
structure ResultInfo where
  TotalPages : Int
  deriving DecidableEq, Repr

/-- The cloudflare-go type `Zone`; the file reads `ID` only. -/
structure Zone where
  ID : String
  deriving DecidableEq, Repr

/-- Wrapper struct that includes the zone ID and flattens the CustomHostname
fields (source lines 13-22). -/
structure customHostnameRow where
  ID : String
  ZoneID : String
  Hostname : String
  CustomOriginServer : String
  Status : String
  CreatedAt : Option Time
  SSLConfig : Option CustomHostnameSSL
  deriving DecidableEq, Repr

/-! ## Table definition -/

/-- The column types of the plugin protocol that the table uses. -/
inductive ColumnType where
  | STRING
  | TIMESTAMP
  | JSON
  | BOOL
  deriving DecidableEq, Repr

/-- A column transform; the table only uses `transform.FromField(path)`. -/
inductive Transform where
  | FromField (path : String)
  deriving DecidableEq, Repr

/-- The framework's `plugin.Column`; `Transform` is nil when the literal leaves
it out. -/
structure Column where
  Name : String
  Type_ : ColumnType
  Transform : Option Transform
  Description : String
  deriving DecidableEq, Repr

/-- Whether a key column must be given (`plugin.Required`, `plugin.Optional`). -/
inductive Require where
  | Required
  | Optional
  deriving DecidableEq, Repr

/-- The framework's `plugin.KeyColumn`. -/
structure KeyColumn where
  Name : String
  Operators : List String
  Require : Require
  deriving DecidableEq, Repr

/-- The framework's `plugin.AllColumns`: every listed column is a required key
column compared with `=`. -/
def AllColumns (columns : List String) : List KeyColumn :=
  columns.map fun c => { Name := c, Operators := ["="], Require := Require.Required }

/-- The hydrate functions that the table definition refers to. -/
inductive HydrateFunc where
  | listZones
  | listCustomHostnames
  | getCustomHostname
  deriving DecidableEq, Repr

/-- The framework's `plugin.ListConfig`. -/
structure ListConfig where
  ParentHydrate : HydrateFunc
  Hydrate : HydrateFunc
  deriving DecidableEq, Repr

/-- The framework's `plugin.GetConfig`. -/
structure GetConfig where
  KeyColumns : List KeyColumn
  Hydrate : HydrateFunc
  deriving DecidableEq, Repr

/-- The framework's `plugin.Table`. -/
structure Table where
  Name : String
  Description : String
  Columns : List Column
  List : ListConfig
  Get : GetConfig
  deriving DecidableEq, Repr

/-- The slice literal that `tableCloudflareCustomHostname` hands to
`commonColumns` (source lines 36-55). -/
def customHostnameColumns : List Column :=
  [ -- Top columns
    { Name := "id", Type_ := .STRING, Transform := none,
      Description := "Custom hostname identifier." },
    { Name := "hostname", Type_ := .STRING, Transform := none,
      Description := "The custom hostname that will point to your zone." },
    { Name := "zone_id", Type_ := .STRING, Transform := none,
      Description := "Zone identifier." },
    -- Other columns
    { Name := "created_at", Type_ := .TIMESTAMP, Transform := none,
      Description := "When the custom hostname was created." },
    { Name := "custom_origin_server", Type_ := .STRING, Transform := none,
      Description := "Custom origin server address for the hostname." },
    { Name := "status", Type_ := .STRING, Transform := none,
      Description := "Status of the custom hostname." },
    -- SSL fields
    { Name := "certificate_authority", Type_ := .STRING,
      Transform := some (.FromField "SSLConfig.CertificateAuthority"),
      Description := "Certificate authority used for the SSL certificate." },
    { Name := "ssl_id", Type_ := .STRING,
      Transform := some (.FromField "SSLConfig.ID"),
      Description := "Identifier of the SSL certificate." },
    { Name := "ssl_method", Type_ := .STRING,
      Transform := some (.FromField "SSLConfig.Method"),
      Description := "Method used for SSL verification." },
    { Name := "ssl_settings", Type_ := .JSON,
      Transform := some (.FromField "SSLConfig.Settings"),
      Description := "Additional SSL settings for the hostname." },
    { Name := "ssl_status", Type_ := .STRING,
      Transform := some (.FromField "SSLConfig.Status"),
      Description := "Status of the SSL certificate." },
    { Name := "ssl_type", Type_ := .STRING,
      Transform := some (.FromField "SSLConfig.Type"),
      Description := "Type of SSL certificate." },
    { Name := "ssl_wildcard", Type_ := .BOOL,
      Transform := some (.FromField "SSLConfig.Wildcard"),
      Description := "Whether the SSL certificate is a wildcard certificate." } ]

/-- The function `tableCloudflareCustomHostname` (source lines 24-57).
`commonColumns` is defined elsewhere in the plugin and is a parameter here. -/
def tableCloudflareCustomHostname (commonColumns : List Column → List Column) : Table :=
  { Name := "cloudflare_custom_hostname"
    Description := "Custom Hostnames allow you to use your own domain name with SSL/TLS protection for your zone."
    List := { ParentHydrate := .listZones, Hydrate := .listCustomHostnames }
    Get := { KeyColumns := AllColumns ["zone_id", "id"], Hydrate := .getCustomHostname }
    Columns := commonColumns customHostnameColumns }

/-! ## The world outside the file -/

/-- The two methods of the API client that the file calls.  Each returns
either an error or its results (Go returns a result together with a nil
error). -/
structure API (ε : Type) where
  CustomHostnames : String → Int → CustomHostname → Except ε (List CustomHostname × ResultInfo)
  CustomHostname : String → String → Except ε CustomHostname

/-- A value of an equality qualifier (the framework's `proto.QualValue`). -/
inductive QualValue where
  | StringValue (s : String)
  | Int64Value (i : Int)
  | BoolValue (b : Bool)
  deriving DecidableEq, Repr

/-- The generated getter `GetStringValue`: the string of a string value, and
the empty string for any other value and for a nil receiver. -/
def GetStringValue : Option QualValue → String
  | some (.StringValue s) => s
  | _ => ""

/-- The part of `plugin.QueryData` that the file reads: the map `EqualsQuals`
(a missing key reads as nil). -/
structure QueryData where
  EqualsQuals : String → Option QualValue

/-- The part of `plugin.HydrateData` that the file reads: the parent item,
which `listCustomHostnames` asserts to be a `cloudflare.Zone`. -/
structure HydrateData where
  Item : Zone

/-- What a hydrate function does to the outside world, in program order. -/
inductive Event (ε : Type) where
  | listCall (zoneID : String) (page : Int) (filter : CustomHostname)
  | getCall (zoneID : String) (hostnameID : String)
  | stream (row : customHostnameRow)
  | logError (fn : String) (key : String) (err : ε)

/-- The Go return value `(interface{}, error)` of a hydrate function; the
first component is nil or a row. -/
abbrev HydrateResult (ε : Type) : Type := Option customHostnameRow × Option ε

/-! ## Machine integers -/

/-- The largest Go `int` (64 bits). -/
def maxInt : Int := 2 ^ 63 - 1

/-- Two's-complement wrap-around of a 64-bit Go `int`. -/
def wrapInt (x : Int) : Int := (x + 2 ^ 63) % 2 ^ 64 - 2 ^ 63

/-! ## Hydrate functions -/

/-- The `for` loop of `listCustomHostnames` (source lines 72-100), started at
`page`, run for at most `fuel` iterations. -/
def listCustomHostnamesLoop {ε : Type} (conn : API ε) (zone : Zone) :
    Nat → Int → List (Event ε) × Option (HydrateResult ε)
  | 0, _ => ([], none)
  | fuel + 1, page =>
    -- List custom hostnames for the zone with pagination
    match conn.CustomHostnames zone.ID page CustomHostname.zero with
    | .error err =>
      ([Event.listCall zone.ID page CustomHostname.zero,
        Event.logError "listCustomHostnames" "api_error" err], some (none, some err))
    | .ok (customHostnames, info) =>
      let streamed : List (Event ε) := customHostnames.map fun hostname =>
        Event.stream
          { ID := hostname.ID
            ZoneID := zone.ID
            Hostname := hostname.Hostname
            CustomOriginServer := hostname.CustomOriginServer
            Status := hostname.Status.string
            CreatedAt := hostname.CreatedAt
            SSLConfig := hostname.SSL }
      -- Check if we've reached the last page
      if page ≥ info.TotalPages then
        (Event.listCall zone.ID page CustomHostname.zero :: streamed, some (none, none))
      else
        -- Move to next page
        let rest := listCustomHostnamesLoop conn zone fuel (wrapInt (page + 1))
        (Event.listCall zone.ID page CustomHostname.zero :: streamed ++ rest.1, rest.2)

/-- The function `listCustomHostnames` (source lines 59-103).  `connect` is
defined elsewhere in the plugin and is a parameter here. -/
def listCustomHostnames {ε : Type} (connect : QueryData → Except ε (API ε)) (fuel : Nat)
    (d : QueryData) (h : HydrateData) : List (Event ε) × Option (HydrateResult ε) :=
  let zone := h.Item
  match connect d with
  | .error err => ([Event.logError "listCustomHostnames" "connection_error" err], some (none, some err))
  | .ok conn =>
    -- Initialize page number
    listCustomHostnamesLoop conn zone fuel 1

/-- The function `getCustomHostname` (source lines 105-134). -/
def getCustomHostname {ε : Type} (connect : QueryData → Except ε (API ε))
    (d : QueryData) : List (Event ε) × HydrateResult ε :=
  match connect d with
  | .error err => ([Event.logError "getCustomHostname" "connection_error" err], (none, some err))
  | .ok conn =>
    let quals := d.EqualsQuals
    let zoneID := GetStringValue (quals "zone_id")
    let hostnameID := GetStringValue (quals "id")
    match conn.CustomHostname zoneID hostnameID with
    | .error err =>
      ([Event.getCall zoneID hostnameID, Event.logError "getCustomHostname" "api_error" err],
        (none, some err))
    | .ok hostname =>
      let row : customHostnameRow :=
        { ID := hostname.ID
          ZoneID := zoneID
          Hostname := hostname.Hostname
          CustomOriginServer := hostname.CustomOriginServer
          Status := hostname.Status.string
          CreatedAt := hostname.CreatedAt
          SSLConfig := hostname.SSL }
      ([Event.getCall zoneID hostnameID], (some row, none))

/-! ## Reading a trace -/

/-- The page numbers of the list requests of a trace, in order. -/
def requestedPages {ε : Type} : List (Event ε) → List Int
  | [] => []
  | Event.listCall _ page _ :: es => page :: requestedPages es
  | _ :: es => requestedPages es

/-- The rows streamed in a trace, in order. -/
def streamedRows {ε : Type} : List (Event ε) → List customHostnameRow
  | [] => []
  | Event.stream row :: es => row :: streamedRows es
  | _ :: es => streamedRows es

/-- Whether an event is a call of the API client. -/
def Event.isAPICall {ε : Type} : Event ε → Bool
  | Event.listCall _ _ _ => true
  | Event.getCall _ _ => true
  | _ => false

/-- The calls of the API client of a trace, in order. -/
def apiCalls {ε : Type} (es : List (Event ε)) : List (Event ε) :=
  es.filter Event.isAPICall

/-! ## Expected traces -/

/-- The row that the claims expect for API object `o` under zone identifier
`zoneID`: the zone identifier comes from the request, everything else is
copied from `o`. -/
def expectedRow (zoneID : String) (o : CustomHostname) : customHostnameRow :=
  ⟨o.ID, zoneID, o.Hostname, o.CustomOriginServer, o.Status.val, o.CreatedAt, o.SSL⟩

/-- The events of one successfully fetched page: the request, then one
streamed row per hostname of the page. -/
def pageEvents {ε : Type} (zoneID : String) (content : Int → List CustomHostname)
    (page : Int) : List (Event ε) :=
  Event.listCall zoneID page CustomHostname.zero ::
    (content page).map fun o => Event.stream (expectedRow zoneID o)

/-- The page numbers `s, s+1, ..., s+n-1` as Go integers. -/
def pageRange (s n : Nat) : List Int := (List.range' s n).map Int.ofNat

/-! ## A small concrete world, used to run the functions -/

/-- A hostname object without SSL configuration. -/
def demoHost (id name : String) : CustomHostname :=
  { ID := id, Hostname := name, CustomOriginServer := "origin.example.com", SSL := none,
    Status := ⟨"active"⟩, CreatedAt := some ⟨1700000000⟩ }

/-- An SSL configuration. -/
def demoSSL : CustomHostnameSSL :=
  { ID := "ssl-1", Status := "active", Method := "http", Type_ := "dv", Wildcard := some false,
    CertificateAuthority := "lets_encrypt",
    Settings := { HTTP2 := "on", TLS13 := "on", MinTLSVersion := "1.2", Ciphers := [] } }

/-- A hostname object with SSL configuration. -/
def demoHostSSL (id name : String) : CustomHostname :=
  { ID := id, Hostname := name, CustomOriginServer := "", SSL := some demoSSL,
    Status := ⟨"pending"⟩, CreatedAt := none }

/-- Three pages of hostnames: two on page 1, none on page 2, one on any other
page. -/
def demoContent (page : Int) : List CustomHostname :=
  if page = 1 then [demoHost "h1" "a.example.com", demoHostSSL "h2" "b.example.com"]
  else if page = 2 then []
  else [demoHost "h3" "c.example.com"]

/-- A client that answers every list request and reports three pages, and
answers every get request with the object `h2`. -/
def demoConn : API String :=
  { CustomHostnames := fun _ page _ => .ok (demoContent page, ⟨3⟩)
    CustomHostname := fun _ _ => .ok (demoHostSSL "h2" "b.example.com") }

/-- A client whose list requests succeed on pages below 3 and fail from page 3
on, and whose get requests fail. -/
def demoFailingConn : API String :=
  { CustomHostnames := fun _ page _ =>
      if page < 3 then .ok (demoContent page, ⟨5⟩) else .error "rate limited"
    CustomHostname := fun _ _ => .error "not found" }

/-- A client whose responses report a varying page count: 4 on page 1, 0 on
page 2, and 9 on every other page. -/
def demoVaryingConn : API String :=
  { CustomHostnames := fun _ page _ =>
      .ok (demoContent page, ⟨if page = 1 then 4 else if page = 2 then 0 else 9⟩)
    CustomHostname := fun _ _ => .error "not found" }

/-- Query data with the qualifiers `zone_id = "zone-1"` and `id = "h2"`. -/
def demoQueryData : QueryData :=
  { EqualsQuals := fun k =>
      if k = "zone_id" then some (.StringValue "zone-1")
      else if k = "id" then some (.StringValue "h2")
      else none }

/-- Hydrate data whose parent item is the zone `zone-1`. -/
def demoHydrateData : HydrateData := { Item := { ID := "zone-1" } }

/-- Query data with the qualifiers `zone_id = "zone-1"` and `id = "h1"`; the
client `demoConn` answers it with the object `h2`. -/
def demoOtherQueryData : QueryData :=
  { EqualsQuals := fun k =>
      if k = "zone_id" then some (.StringValue "zone-1")
      else if k = "id" then some (.StringValue "h1")
      else none }

/-- A client that answers every list request like `demoConn` and answers
every get request with the object `h3`, which the list path finds on page 3. -/
def demoThirdConn : API String :=
  { CustomHostnames := fun _ page _ => .ok (demoContent page, ⟨3⟩)
    CustomHostname := fun _ _ => .ok (demoHost "h3" "c.example.com") }

/-- Query data with the qualifiers `zone_id = "zone-1"` and `id = "h3"`. -/
def demoThirdQueryData : QueryData :=
  { EqualsQuals := fun k =>
      if k = "zone_id" then some (.StringValue "zone-1")
      else if k = "id" then some (.StringValue "h3")
      else none }

/-! ## The objects behind a trace -/

/-- The objects that the client returns for page `page` of zone `zoneID`: the
hostnames of the response, and none when the request fails. -/
def pageObjects {ε : Type} (conn : API ε) (zoneID : String) (page : Int) :
    List CustomHostname :=
  match conn.CustomHostnames zoneID page CustomHostname.zero with
  | .ok (hs, _) => hs
  | .error _ => []

/-- The objects that a run of `listCustomHostnames` received from the client,
in order: those of every page it requested, over all its requests. -/
def fetchedObjects {ε : Type} (connect : QueryData → Except ε (API ε)) (d : QueryData)
    (zoneID : String) (trace : List (Event ε)) : List CustomHostname :=
  match connect d with
  | .error _ => []
  | .ok conn => (requestedPages trace).flatMap (pageObjects conn zoneID)

/-! ## Auxiliary lemmas -/

theorem wrapInt_succ (p : Int) (h0 : 0 ≤ p) (h1 : p < maxInt) : wrapInt (p + 1) = p + 1 := by
  unfold wrapInt
  unfold maxInt at h1
  have e63 : (2 : Int) ^ 63 = 9223372036854775808 := by norm_num
  have e64 : (2 : Int) ^ 64 = 18446744073709551616 := by norm_num
  rw [e63, e64] at *
  omega

theorem pageRange_succ (s n : Nat) : pageRange s (n + 1) = (s : Int) :: pageRange (s + 1) n := by
  simp [pageRange, List.range'_succ]

theorem requestedPages_append {ε : Type} (xs ys : List (Event ε)) :
    requestedPages (xs ++ ys) = requestedPages xs ++ requestedPages ys := by
  induction xs with
  | nil => rfl
  | cons e es ih => cases e <;> simp [requestedPages, ih]

theorem streamedRows_append {ε : Type} (xs ys : List (Event ε)) :
    streamedRows (xs ++ ys) = streamedRows xs ++ streamedRows ys := by
  induction xs with
  | nil => rfl
  | cons e es ih => cases e <;> simp [streamedRows, ih]

theorem apiCalls_append {ε : Type} (xs ys : List (Event ε)) :
    apiCalls (xs ++ ys) = apiCalls xs ++ apiCalls ys := by
  simp [apiCalls]

theorem requestedPages_streams {ε : Type} (rows : List customHostnameRow) :
    requestedPages (rows.map fun r => (Event.stream r : Event ε)) = [] := by
  induction rows with
  | nil => rfl
  | cons r rs ih => simpa [requestedPages] using ih

theorem streamedRows_streams {ε : Type} (rows : List customHostnameRow) :
    streamedRows (rows.map fun r => (Event.stream r : Event ε)) = rows := by
  induction rows with
  | nil => rfl
  | cons r rs ih => simpa [streamedRows] using ih

theorem apiCalls_streams {ε : Type} (rows : List customHostnameRow) :
    apiCalls (rows.map fun r => (Event.stream r : Event ε)) = [] := by
  induction rows with
  | nil => rfl
  | cons r rs ih => simp [apiCalls, Event.isAPICall]

theorem requestedPages_pageEvents {ε : Type} (z : String) (content : Int → List CustomHostname)
    (p : Int) : requestedPages (pageEvents z content p : List (Event ε)) = [p] := by
  have h := @requestedPages_streams ε ((content p).map (expectedRow z))
  simp only [List.map_map] at h
  simp only [pageEvents, requestedPages]
  rw [show ((fun o => Event.stream (expectedRow z o)) : CustomHostname → Event ε)
    = (fun r => Event.stream r) ∘ expectedRow z from rfl, h]

theorem streamedRows_pageEvents {ε : Type} (z : String) (content : Int → List CustomHostname)
    (p : Int) :
    streamedRows (pageEvents z content p : List (Event ε)) = (content p).map (expectedRow z) := by
  have h := @streamedRows_streams ε ((content p).map (expectedRow z))
  simp only [List.map_map] at h
  simp only [pageEvents, streamedRows]
  rw [show ((fun o => Event.stream (expectedRow z o)) : CustomHostname → Event ε)
    = (fun r => Event.stream r) ∘ expectedRow z from rfl, h]

theorem apiCalls_pageEvents {ε : Type} (z : String) (content : Int → List CustomHostname)
    (p : Int) :
    apiCalls (pageEvents z content p : List (Event ε))
      = [Event.listCall z p CustomHostname.zero] := by
  have h := @apiCalls_streams ε ((content p).map (expectedRow z))
  simp only [List.map_map] at h
  have h2 : apiCalls (pageEvents z content p : List (Event ε))
      = Event.listCall z p CustomHostname.zero ::
        apiCalls ((content p).map fun o => (Event.stream (expectedRow z o) : Event ε)) := by
    simp [pageEvents, apiCalls, Event.isAPICall]
  rw [h2, show ((fun o => Event.stream (expectedRow z o)) : CustomHostname → Event ε)
    = (fun r => Event.stream r) ∘ expectedRow z from rfl, h]

theorem requestedPages_flatMap {ε : Type} (z : String) (content : Int → List CustomHostname)
    (ps : List Int) :
    requestedPages (ps.flatMap fun p => (pageEvents z content p : List (Event ε))) = ps := by
  induction ps with
  | nil => rfl
  | cons p ps ih =>
    simp only [List.flatMap_cons, requestedPages_append, requestedPages_pageEvents, ih]
    rfl

theorem streamedRows_flatMap {ε : Type} (z : String) (content : Int → List CustomHostname)
    (ps : List Int) :
    streamedRows (ps.flatMap fun p => (pageEvents z content p : List (Event ε)))
      = (ps.flatMap content).map (expectedRow z) := by
  induction ps with
  | nil => rfl
  | cons p ps ih =>
    simp only [List.flatMap_cons, streamedRows_append, streamedRows_pageEvents, ih,
      List.map_append]

theorem apiCalls_flatMap {ε : Type} (z : String) (content : Int → List CustomHostname)
    (ps : List Int) :
    apiCalls (ps.flatMap fun p => (pageEvents z content p : List (Event ε)))
      = ps.map fun p => Event.listCall z p CustomHostname.zero := by
  induction ps with
  | nil => rfl
  | cons p ps ih =>
    simp only [List.flatMap_cons, apiCalls_append, apiCalls_pageEvents, ih, List.map_cons]
    rfl

/-- One iteration of the loop on a page that is answered without error. -/
theorem loop_step_ok {ε : Type} (conn : API ε) (zone : Zone) (fuel : Nat) (page : Int)
    (hs : List CustomHostname) (info : ResultInfo)
    (h : conn.CustomHostnames zone.ID page CustomHostname.zero = .ok (hs, info)) :
    listCustomHostnamesLoop conn zone (fuel + 1) page =
      if page ≥ info.TotalPages then
        (pageEvents zone.ID (fun _ => hs) page, some (none, none))
      else
        (pageEvents zone.ID (fun _ => hs) page
            ++ (listCustomHostnamesLoop conn zone fuel (wrapInt (page + 1))).1,
          (listCustomHostnamesLoop conn zone fuel (wrapInt (page + 1))).2) := by
  rw [listCustomHostnamesLoop, h]
  rfl

/-- One iteration of the loop on a page whose request fails. -/
theorem loop_step_error {ε : Type} (conn : API ε) (zone : Zone) (fuel : Nat) (page : Int)
    (e : ε) (h : conn.CustomHostnames zone.ID page CustomHostname.zero = .error e) :
    listCustomHostnamesLoop conn zone (fuel + 1) page =
      ([Event.listCall zone.ID page CustomHostname.zero,
        Event.logError "listCustomHostnames" "api_error" e], some (none, some e)) := by
  rw [listCustomHostnamesLoop, h]

/-- The loop walks through `n` consecutive pages that are answered without
error and do not end the loop, and then goes on from page `s + n`. -/
theorem loop_walk_pages {ε : Type} (conn : API ε) (zone : Zone)
    (content : Int → List CustomHostname) (T : Int → Int) (n : Nat) :
    ∀ (s fuel : Nat),
      (∀ i : Nat, s ≤ i → i < s + n →
        conn.CustomHostnames zone.ID i CustomHostname.zero = .ok (content i, ⟨T i⟩)
          ∧ (i : Int) < T i ∧ T i ≤ maxInt) →
      listCustomHostnamesLoop conn zone (n + fuel) s =
        ((pageRange s n).flatMap (fun p => pageEvents zone.ID content p)
            ++ (listCustomHostnamesLoop conn zone fuel ((s + n : Nat) : Int)).1,
          (listCustomHostnamesLoop conn zone fuel ((s + n : Nat) : Int)).2) := by
  induction n with
  | zero => intro s fuel _; simp [pageRange]
  | succ n ih =>
    intro s fuel hp
    obtain ⟨hok, hlt, hmax⟩ := hp s (le_refl s) (by omega)
    have hw : wrapInt ((s : Int) + 1) = ((s + 1 : Nat) : Int) := by
      rw [wrapInt_succ _ (by omega) (by omega)]; push_cast; ring
    have hstep := loop_step_ok conn zone (n + fuel) s _ _ hok
    rw [show n + 1 + fuel = n + fuel + 1 by omega, hstep, if_neg (not_le.mpr hlt), hw,
      ih (s + 1) fuel (fun i h1 h2 => hp i (by omega) (by omega)), pageRange_succ]
    simp only [List.flatMap_cons, List.append_assoc, pageEvents]
    rw [show s + 1 + n = s + (n + 1) by omega]

theorem pageRange_concat (s n : Nat) :
    pageRange s (n + 1) = pageRange s n ++ [((s + n : Nat) : Int)] := by
  simp [pageRange, List.range'_1_concat]

/-- A run of the loop over `n` pages that do not end it and a last page that
does: the whole trace and the result. -/
theorem loop_complete {ε : Type} (conn : API ε) (zone : Zone)
    (content : Int → List CustomHostname) (T : Int → Int) (s n fuel : Nat)
    (hpre : ∀ i : Nat, s ≤ i → i < s + n →
      conn.CustomHostnames zone.ID i CustomHostname.zero = .ok (content i, ⟨T i⟩)
        ∧ (i : Int) < T i ∧ T i ≤ maxInt)
    (hlast : conn.CustomHostnames zone.ID ((s + n : Nat) : Int) CustomHostname.zero
      = .ok (content ((s + n : Nat) : Int), ⟨T ((s + n : Nat) : Int)⟩))
    (hend : T ((s + n : Nat) : Int) ≤ ((s + n : Nat) : Int)) :
    listCustomHostnamesLoop conn zone (n + (fuel + 1)) s =
      ((pageRange s (n + 1)).flatMap (fun p => pageEvents zone.ID content p),
        some (none, none)) := by
  rw [loop_walk_pages conn zone content T n s (fuel + 1) hpre,
    loop_step_ok conn zone fuel _ _ _ hlast, if_pos (ge_iff_le.mpr hend), pageRange_concat]
  simp [pageEvents]

/-- A run of the loop over `n` pages that do not end it and a next page whose
request fails: the whole trace and the result. -/
theorem loop_fail {ε : Type} (conn : API ε) (zone : Zone)
    (content : Int → List CustomHostname) (T : Int → Int) (s n fuel : Nat) (e : ε)
    (hpre : ∀ i : Nat, s ≤ i → i < s + n →
      conn.CustomHostnames zone.ID i CustomHostname.zero = .ok (content i, ⟨T i⟩)
        ∧ (i : Int) < T i ∧ T i ≤ maxInt)
    (hlast : conn.CustomHostnames zone.ID ((s + n : Nat) : Int) CustomHostname.zero
      = .error e) :
    listCustomHostnamesLoop conn zone (n + (fuel + 1)) s =
      ((pageRange s n).flatMap (fun p => pageEvents zone.ID content p)
          ++ [Event.listCall zone.ID ((s + n : Nat) : Int) CustomHostname.zero,
              Event.logError "listCustomHostnames" "api_error" e],
        some (none, some e)) := by
  rw [loop_walk_pages conn zone content T n s (fuel + 1) hpre,
    loop_step_error conn zone fuel _ e hlast]

/-- Every row streamed by the loop is the copy of an object of a page that the
client returned for the zone. -/
theorem loop_streamed_rows {ε : Type} (conn : API ε) (zone : Zone) (fuel : Nat) :
    ∀ (page : Int) (r : customHostnameRow),
      r ∈ streamedRows (listCustomHostnamesLoop conn zone fuel page).1 →
      ∃ (p : Int) (hs : List CustomHostname) (info : ResultInfo) (o : CustomHostname),
        conn.CustomHostnames zone.ID p CustomHostname.zero = .ok (hs, info) ∧ o ∈ hs
          ∧ r = expectedRow zone.ID o := by
  induction fuel with
  | zero => intro page r hr; simp [listCustomHostnamesLoop, streamedRows] at hr
  | succ fuel ih =>
    intro page r hr
    cases hres : conn.CustomHostnames zone.ID page CustomHostname.zero with
    | error e =>
      rw [loop_step_error conn zone fuel page e hres] at hr
      simp [streamedRows] at hr
    | ok res =>
      obtain ⟨hs, info⟩ := res
      rw [loop_step_ok conn zone fuel page hs info hres] at hr
      have hhere : ∀ r, r ∈ streamedRows (pageEvents zone.ID (fun _ => hs) page : List (Event ε)) →
          ∃ o, o ∈ hs ∧ r = expectedRow zone.ID o := by
        intro r hr
        rw [streamedRows_pageEvents] at hr
        obtain ⟨o, ho, rfl⟩ := List.mem_map.mp hr
        exact ⟨o, ho, rfl⟩
      split at hr
      · obtain ⟨o, ho, hro⟩ := hhere r hr
        exact ⟨page, hs, info, o, hres, ho, hro⟩
      · rw [streamedRows_append] at hr
        rcases List.mem_append.mp hr with hr | hr
        · obtain ⟨o, ho, hro⟩ := hhere r hr
          exact ⟨page, hs, info, o, hres, ho, hro⟩
        · exact ih _ r hr

/-- The loop returns an error only if a request of the client returned it. -/
theorem loop_error_origin {ε : Type} (conn : API ε) (zone : Zone) (fuel : Nat) :
    ∀ (page : Int) (x : Option customHostnameRow) (e : ε),
      (listCustomHostnamesLoop conn zone fuel page).2 = some (x, some e) →
      ∃ p : Int, conn.CustomHostnames zone.ID p CustomHostname.zero = .error e := by
  induction fuel with
  | zero => intro page x e hr; simp [listCustomHostnamesLoop] at hr
  | succ fuel ih =>
    intro page x e hr
    cases hres : conn.CustomHostnames zone.ID page CustomHostname.zero with
    | error e2 =>
      rw [loop_step_error conn zone fuel page e2 hres] at hr
      simp only [Option.some.injEq, Prod.mk.injEq] at hr
      exact ⟨page, by rw [hres, hr.2]⟩
    | ok res =>
      obtain ⟨hs, info⟩ := res
      rw [loop_step_ok conn zone fuel page hs info hres] at hr
      split at hr
      · simp at hr
      · exact ih _ x e hr

/-- The first iteration on a page answered without error: the trace starts
with the events of that page. -/
theorem loop_first_page {ε : Type} (conn : API ε) (zone : Zone) (fuel : Nat) (page : Int)
    (hs : List CustomHostname) (info : ResultInfo)
    (h : conn.CustomHostnames zone.ID page CustomHostname.zero = .ok (hs, info)) :
    ∃ rest, (listCustomHostnamesLoop conn zone (fuel + 1) page).1
      = pageEvents zone.ID (fun _ => hs) page ++ rest := by
  rw [loop_step_ok conn zone fuel page hs info h]
  split
  · exact ⟨[], by simp⟩
  · exact ⟨_, rfl⟩

/-- The whole trace and the result of `listCustomHostnames` when pages
`1..n` do not end the loop and page `n + 1` does. -/
theorem list_complete {ε : Type} (connect : QueryData → Except ε (API ε)) (conn : API ε)
    (d : QueryData) (h : HydrateData) (content : Int → List CustomHostname) (T : Int → Int)
    (n fuel : Nat) (hconn : connect d = .ok conn)
    (hpre : ∀ i : Nat, 1 ≤ i → i < 1 + n →
      conn.CustomHostnames h.Item.ID i CustomHostname.zero = .ok (content i, ⟨T i⟩)
        ∧ (i : Int) < T i ∧ T i ≤ maxInt)
    (hlast : conn.CustomHostnames h.Item.ID ((1 + n : Nat) : Int) CustomHostname.zero
      = .ok (content ((1 + n : Nat) : Int), ⟨T ((1 + n : Nat) : Int)⟩))
    (hend : T ((1 + n : Nat) : Int) ≤ ((1 + n : Nat) : Int)) :
    listCustomHostnames connect (n + (fuel + 1)) d h =
      ((pageRange 1 (n + 1)).flatMap (fun p => pageEvents h.Item.ID content p),
        some (none, none)) := by
  have := loop_complete conn h.Item content T 1 n fuel hpre hlast hend
  simp only [listCustomHostnames, hconn]
  exact this

/-- The whole trace and the result of `listCustomHostnames` when pages
`1..n` do not end the loop and the request for page `n + 1` fails. -/
theorem list_fail {ε : Type} (connect : QueryData → Except ε (API ε)) (conn : API ε)
    (d : QueryData) (h : HydrateData) (content : Int → List CustomHostname) (T : Int → Int)
    (n fuel : Nat) (e : ε) (hconn : connect d = .ok conn)
    (hpre : ∀ i : Nat, 1 ≤ i → i < 1 + n →
      conn.CustomHostnames h.Item.ID i CustomHostname.zero = .ok (content i, ⟨T i⟩)
        ∧ (i : Int) < T i ∧ T i ≤ maxInt)
    (hlast : conn.CustomHostnames h.Item.ID ((1 + n : Nat) : Int) CustomHostname.zero
      = .error e) :
    listCustomHostnames connect (n + (fuel + 1)) d h =
      ((pageRange 1 n).flatMap (fun p => pageEvents h.Item.ID content p)
          ++ [Event.listCall h.Item.ID ((1 + n : Nat) : Int) CustomHostname.zero,
              Event.logError "listCustomHostnames" "api_error" e],
        some (none, some e)) := by
  have := loop_fail conn h.Item content T 1 n fuel e hpre hlast
  simp only [listCustomHostnames, hconn]
  exact this

/-! ## The claims -/

/-- C1: if the connection is established, every page request for the zone is
answered without error and every response reports `TotalPages = N` with
`N ≥ 1` (a Go `int`, so at most `maxInt`), then with fuel for `N` iterations
`listCustomHostnames` returns `(nil, nil)`, its requests are exactly the pages
`1, 2, ..., N` in this order, each once, all for the parent zone with the empty
filter, and the rows it streams are the row mapping applied to the
concatenation of pages `1..N`. -/
theorem listCustomHostnames_fetches_all_pages {ε : Type}
    (connect : QueryData → Except ε (API ε)) (conn : API ε) (d : QueryData) (h : HydrateData)
    (content : Int → List CustomHostname) (N fuel : Nat)
    (hconn : connect d = .ok conn) (hN : 1 ≤ N) (hmax : (N : Int) ≤ maxInt)
    (hpages : ∀ p : Int,
      conn.CustomHostnames h.Item.ID p CustomHostname.zero = .ok (content p, ⟨(N : Int)⟩))
    (hfuel : N ≤ fuel) :
    (listCustomHostnames connect fuel d h).2 = some (none, none)
      ∧ requestedPages (listCustomHostnames connect fuel d h).1 = pageRange 1 N
      ∧ apiCalls (listCustomHostnames connect fuel d h).1
          = (pageRange 1 N).map (fun p => Event.listCall h.Item.ID p CustomHostname.zero)
      ∧ streamedRows (listCustomHostnames connect fuel d h).1
          = ((pageRange 1 N).flatMap content).map (expectedRow h.Item.ID) := by
  obtain ⟨n, rfl⟩ : ∃ n, N = n + 1 := ⟨N - 1, by omega⟩
  obtain ⟨f, rfl⟩ : ∃ f, fuel = n + (f + 1) := ⟨fuel - (n + 1), by omega⟩
  have hrun := list_complete connect conn d h content (fun _ => ((n + 1 : Nat) : Int)) n f hconn
    (fun i _ h2 => ⟨hpages i, by push_cast; omega, hmax⟩) (hpages _) (by push_cast; omega)
  rw [hrun]
  exact ⟨rfl, requestedPages_flatMap _ _ _, apiCalls_flatMap _ _ _, streamedRows_flatMap _ _ _⟩

/-- C1, run: three pages holding two, zero and one hostname. -/
theorem listCustomHostnames_fetches_all_pages_witness :
    (listCustomHostnames (fun _ => .ok demoConn) 3 demoQueryData demoHydrateData).2
        = some (none, none)
      ∧ requestedPages
          (listCustomHostnames (fun _ => .ok demoConn) 3 demoQueryData demoHydrateData).1
          = [1, 2, 3]
      ∧ apiCalls (listCustomHostnames (fun _ => .ok demoConn) 3 demoQueryData demoHydrateData).1
          = [Event.listCall "zone-1" 1 CustomHostname.zero,
             Event.listCall "zone-1" 2 CustomHostname.zero,
             Event.listCall "zone-1" 3 CustomHostname.zero]
      ∧ streamedRows
          (listCustomHostnames (fun _ => .ok demoConn) 3 demoQueryData demoHydrateData).1
          = [expectedRow "zone-1" (demoHost "h1" "a.example.com"),
             expectedRow "zone-1" (demoHostSSL "h2" "b.example.com"),
             expectedRow "zone-1" (demoHost "h3" "c.example.com")] :=
  listCustomHostnames_fetches_all_pages (fun _ => .ok demoConn) demoConn demoQueryData
    demoHydrateData demoContent 3 3 rfl (by decide) (by decide) (fun _ => rfl) (le_refl 3)

/-- C2 as stated fails: asked for hostname `h1` of zone `zone-1`, a client
that answers with the object `h2` makes `getCustomHostname` return, without
error, a row whose id is `h2` and not the requested `h1`. -/
theorem getCustomHostname_id_is_not_the_requested_id :
    GetStringValue (demoOtherQueryData.EqualsQuals "zone_id") = "zone-1"
      ∧ GetStringValue (demoOtherQueryData.EqualsQuals "id") = "h1"
      ∧ demoConn.CustomHostname "zone-1" "h1" = .ok (demoHostSSL "h2" "b.example.com")
      ∧ (getCustomHostname (fun _ => .ok demoConn) demoOtherQueryData).2
          = (some (expectedRow "zone-1" (demoHostSSL "h2" "b.example.com")), none)
      ∧ ¬ ∃ r : customHostnameRow,
          (getCustomHostname (fun _ => .ok demoConn) demoOtherQueryData).2 = (some r, none)
            ∧ r.ID = "h1" := by
  refine ⟨rfl, rfl, rfl, rfl, ?_⟩
  rintro ⟨r, hr, hid⟩
  have h2 : (getCustomHostname (fun _ => .ok demoConn) demoOtherQueryData).2
      = (some (expectedRow "zone-1" (demoHostSSL "h2" "b.example.com")), none) := rfl
  rw [h2] at hr
  simp only [Prod.mk.injEq, Option.some.injEq, and_true] at hr
  rw [← hr] at hid
  exact absurd hid (by decide)

/-- C2, amended: for every pair of string equality qualifiers
`(zone_id, id)`, if the connection is established and the client's get call
for that pair succeeds with object `o`, then `getCustomHostname` makes that one
call and returns, with no error, a row whose zone_id is the requested zone_id,
whose id is the id of `o` (hence the requested id whenever `o` carries it), and
whose hostname, custom_origin_server, status, created_at and SSL configuration
are those of `o`. -/
theorem getCustomHostname_returns_row_of_api_object {ε : Type}
    (connect : QueryData → Except ε (API ε)) (conn : API ε) (d : QueryData)
    (zoneID hostnameID : String) (o : CustomHostname)
    (hconn : connect d = .ok conn)
    (hzone : d.EqualsQuals "zone_id" = some (.StringValue zoneID))
    (hid : d.EqualsQuals "id" = some (.StringValue hostnameID))
    (hget : conn.CustomHostname zoneID hostnameID = .ok o) :
    ∃ r : customHostnameRow,
      getCustomHostname connect d = ([Event.getCall zoneID hostnameID], (some r, none))
        ∧ r.ZoneID = zoneID ∧ r.ID = o.ID ∧ (o.ID = hostnameID → r.ID = hostnameID)
        ∧ r.Hostname = o.Hostname ∧ r.CustomOriginServer = o.CustomOriginServer
        ∧ r.Status = o.Status.val ∧ r.CreatedAt = o.CreatedAt ∧ r.SSLConfig = o.SSL := by
  refine ⟨expectedRow zoneID o, ?_, rfl, rfl, fun h => h, rfl, rfl, rfl, rfl, rfl⟩
  simp only [getCustomHostname, hconn, hzone, hid, GetStringValue, hget]
  rfl

/-- C2 amended, run: the lookup of `(zone-1, h2)` answered with object `h2`. -/
theorem getCustomHostname_returns_row_of_api_object_witness :
    ∃ r : customHostnameRow,
      getCustomHostname (fun _ => .ok demoConn) demoQueryData
          = ([Event.getCall "zone-1" "h2"], (some r, none))
        ∧ r.ZoneID = "zone-1" ∧ r.ID = "h2" ∧ ("h2" = "h2" → r.ID = "h2")
        ∧ r.Hostname = "b.example.com" ∧ r.CustomOriginServer = ""
        ∧ r.Status = "pending" ∧ r.CreatedAt = none ∧ r.SSLConfig = some demoSSL :=
  getCustomHostname_returns_row_of_api_object (fun _ => .ok demoConn) demoConn demoQueryData
    "zone-1" "h2" (demoHostSSL "h2" "b.example.com") rfl rfl rfl rfl

/-- C3: if the connection is established and the client's get call for the
pair `(zone_id, id)` fails with error `e`, then `getCustomHostname` returns a
nil row together with `e` itself, and its only call of the client is that one
get call. -/
theorem getCustomHostname_propagates_api_error {ε : Type}
    (connect : QueryData → Except ε (API ε)) (conn : API ε) (d : QueryData) (e : ε)
    (hconn : connect d = .ok conn)
    (hget : conn.CustomHostname (GetStringValue (d.EqualsQuals "zone_id"))
      (GetStringValue (d.EqualsQuals "id")) = .error e) :
    (getCustomHostname connect d).2 = (none, some e)
      ∧ apiCalls (getCustomHostname connect d).1
          = [Event.getCall (GetStringValue (d.EqualsQuals "zone_id"))
              (GetStringValue (d.EqualsQuals "id"))] := by
  have hrun : getCustomHostname connect d
      = ([Event.getCall (GetStringValue (d.EqualsQuals "zone_id"))
            (GetStringValue (d.EqualsQuals "id")),
          Event.logError "getCustomHostname" "api_error" e], (none, some e)) := by
    simp only [getCustomHostname, hconn, hget]
  rw [hrun]
  exact ⟨rfl, rfl⟩

/-- C3, run: a client whose get call fails with `not found`. -/
theorem getCustomHostname_propagates_api_error_witness :
    (getCustomHostname (fun _ => .ok demoFailingConn) demoQueryData).2
        = (none, some "not found")
      ∧ apiCalls (getCustomHostname (fun _ => .ok demoFailingConn) demoQueryData).1
          = [Event.getCall "zone-1" "h2"] :=
  getCustomHostname_propagates_api_error (fun _ => .ok demoFailingConn) demoFailingConn
    demoQueryData "not found" rfl rfl

/-- C4: if the connection is established, the requests for pages `1..k-1`
succeed without ending the loop (each response reports a `TotalPages`, a Go
`int`, above its page number) and the request for page `k ≥ 1` fails with error
`e`, then with fuel for `k` iterations `listCustomHostnames` returns `(nil, e)`
with `e` itself, and its requests are exactly the pages `1, 2, ..., k` in this
order, each once: the failed page is not retried and no later page is
requested. -/
theorem listCustomHostnames_propagates_page_error {ε : Type}
    (connect : QueryData → Except ε (API ε)) (conn : API ε) (d : QueryData) (h : HydrateData)
    (content : Int → List CustomHostname) (T : Int → Int) (k fuel : Nat) (e : ε)
    (hconn : connect d = .ok conn) (hk : 1 ≤ k)
    (hpre : ∀ p : Nat, 1 ≤ p → p < k →
      conn.CustomHostnames h.Item.ID p CustomHostname.zero = .ok (content p, ⟨T p⟩)
        ∧ (p : Int) < T p ∧ T p ≤ maxInt)
    (hfail : conn.CustomHostnames h.Item.ID k CustomHostname.zero = .error e)
    (hfuel : k ≤ fuel) :
    (listCustomHostnames connect fuel d h).2 = some (none, some e)
      ∧ requestedPages (listCustomHostnames connect fuel d h).1 = pageRange 1 k
      ∧ apiCalls (listCustomHostnames connect fuel d h).1
          = (pageRange 1 k).map (fun p => Event.listCall h.Item.ID p CustomHostname.zero) := by
  obtain ⟨n, rfl⟩ : ∃ n, k = n + 1 := ⟨k - 1, by omega⟩
  obtain ⟨f, rfl⟩ : ∃ f, fuel = n + (f + 1) := ⟨fuel - (n + 1), by omega⟩
  have hrun := list_fail connect conn d h content T n f e hconn
    (fun i h1 h2 => hpre i h1 (by omega)) (by rw [show 1 + n = n + 1 by omega]; exact hfail)
  rw [hrun]
  refine ⟨rfl, ?_, ?_⟩
  · rw [requestedPages_append, requestedPages_flatMap, pageRange_concat]
    rfl
  · rw [apiCalls_append, apiCalls_flatMap, pageRange_concat, List.map_append]
    rfl

/-- C4, run: pages 1 and 2 succeed and report 5 pages, page 3 fails. -/
theorem listCustomHostnames_propagates_page_error_witness :
    (listCustomHostnames (fun _ => .ok demoFailingConn) 7 demoQueryData demoHydrateData).2
        = some (none, some "rate limited")
      ∧ requestedPages
          (listCustomHostnames (fun _ => .ok demoFailingConn) 7 demoQueryData demoHydrateData).1
          = [1, 2, 3]
      ∧ apiCalls
          (listCustomHostnames (fun _ => .ok demoFailingConn) 7 demoQueryData demoHydrateData).1
          = [Event.listCall "zone-1" 1 CustomHostname.zero,
             Event.listCall "zone-1" 2 CustomHostname.zero,
             Event.listCall "zone-1" 3 CustomHostname.zero] :=
  listCustomHostnames_propagates_page_error (fun _ => .ok demoFailingConn) demoFailingConn
    demoQueryData demoHydrateData demoContent (fun _ => 5) 3 7 "rate limited" rfl (by decide)
    (fun p h1 h2 => by
      have hp : p = 1 ∨ p = 2 := by omega
      rcases hp with rfl | rfl <;> exact ⟨rfl, by decide, by decide⟩)
    rfl (by decide)

/-- C5: if `connect` fails with error `e`, then `listCustomHostnames` (with any
fuel) and `getCustomHostname` both return `(nil, e)` with `e` itself, neither
calls the API client, and `listCustomHostnames` streams no row. -/
theorem connect_error_is_returned {ε : Type}
    (connect : QueryData → Except ε (API ε)) (d : QueryData) (h : HydrateData) (fuel : Nat)
    (e : ε) (hconn : connect d = .error e) :
    (listCustomHostnames connect fuel d h).2 = some (none, some e)
      ∧ apiCalls (listCustomHostnames connect fuel d h).1 = []
      ∧ streamedRows (listCustomHostnames connect fuel d h).1 = []
      ∧ (getCustomHostname connect d).2 = (none, some e)
      ∧ apiCalls (getCustomHostname connect d).1 = [] := by
  have hlist : listCustomHostnames connect fuel d h
      = ([Event.logError "listCustomHostnames" "connection_error" e], some (none, some e)) := by
    simp only [listCustomHostnames, hconn]
  have hget : getCustomHostname connect d
      = ([Event.logError "getCustomHostname" "connection_error" e], (none, some e)) := by
    simp only [getCustomHostname, hconn]
  rw [hlist, hget]
  exact ⟨rfl, rfl, rfl, rfl, rfl⟩

/-- C5, run: a connection that cannot be established, with no fuel at all. -/
theorem connect_error_is_returned_witness :
    (listCustomHostnames (fun _ => (.error "no token" : Except String (API String))) 0
        demoQueryData demoHydrateData).2 = some (none, some "no token")
      ∧ apiCalls (listCustomHostnames (fun _ => (.error "no token" : Except String (API String)))
          0 demoQueryData demoHydrateData).1 = []
      ∧ streamedRows
          (listCustomHostnames (fun _ => (.error "no token" : Except String (API String)))
            0 demoQueryData demoHydrateData).1 = []
      ∧ (getCustomHostname (fun _ => (.error "no token" : Except String (API String)))
          demoQueryData).2 = (none, some "no token")
      ∧ apiCalls (getCustomHostname (fun _ => (.error "no token" : Except String (API String)))
          demoQueryData).1 = [] :=
  connect_error_is_returned (fun _ => .error "no token") demoQueryData demoHydrateData 0
    "no token" rfl

/-- C6: the table hands to `commonColumns` a list of exactly thirteen columns,
named id, hostname, zone_id, created_at, custom_origin_server, status,
certificate_authority, ssl_id, ssl_method, ssl_settings, ssl_status, ssl_type,
ssl_wildcard in this order, with no name twice; the columns with a transform
are exactly the seven SSL columns, each read from the field of `SSLConfig` it
is named after; and the point lookup has exactly the key columns zone_id and
id, both required and compared with `=`. -/
theorem tableCloudflareCustomHostname_columns (commonColumns : List Column → List Column) :
    (tableCloudflareCustomHostname commonColumns).Columns = commonColumns customHostnameColumns
      ∧ customHostnameColumns.length = 13
      ∧ customHostnameColumns.map Column.Name
          = ["id", "hostname", "zone_id", "created_at", "custom_origin_server", "status",
             "certificate_authority", "ssl_id", "ssl_method", "ssl_settings", "ssl_status",
             "ssl_type", "ssl_wildcard"]
      ∧ (customHostnameColumns.map Column.Name).Nodup
      ∧ customHostnameColumns.filterMap (fun c => c.Transform.map fun t => (c.Name, t))
          = [("certificate_authority", Transform.FromField "SSLConfig.CertificateAuthority"),
             ("ssl_id", Transform.FromField "SSLConfig.ID"),
             ("ssl_method", Transform.FromField "SSLConfig.Method"),
             ("ssl_settings", Transform.FromField "SSLConfig.Settings"),
             ("ssl_status", Transform.FromField "SSLConfig.Status"),
             ("ssl_type", Transform.FromField "SSLConfig.Type"),
             ("ssl_wildcard", Transform.FromField "SSLConfig.Wildcard")]
      ∧ (tableCloudflareCustomHostname commonColumns).Get.KeyColumns
          = [⟨"zone_id", ["="], Require.Required⟩, ⟨"id", ["="], Require.Required⟩] := by
  refine ⟨rfl, rfl, rfl, ?_, rfl, rfl⟩
  decide

/-- C7: every row streamed by `listCustomHostnames` for parent zone `z` is
built from an object `o` of a page that the client returned for `z`: its
zone_id is the ID of `z`, and its id, hostname, custom_origin_server, status
(as a string), created_at and SSL configuration are those of `o`, so the SSL
configuration of the row is absent when `o` has none.  An error is returned
only if `connect` or a page request returned it, never because of an object;
and an object of the first page without SSL configuration does yield a row. -/
theorem listCustomHostnames_rows_copy_api_objects {ε : Type}
    (connect : QueryData → Except ε (API ε)) (fuel : Nat) (d : QueryData) (h : HydrateData) :
    (∀ r ∈ streamedRows (listCustomHostnames connect fuel d h).1,
      ∃ (conn : API ε) (p : Int) (hs : List CustomHostname) (info : ResultInfo)
        (o : CustomHostname),
        connect d = .ok conn
          ∧ conn.CustomHostnames h.Item.ID p CustomHostname.zero = .ok (hs, info) ∧ o ∈ hs
          ∧ r.ZoneID = h.Item.ID ∧ r.ID = o.ID ∧ r.Hostname = o.Hostname
          ∧ r.CustomOriginServer = o.CustomOriginServer ∧ r.Status = o.Status.val
          ∧ r.CreatedAt = o.CreatedAt ∧ r.SSLConfig = o.SSL
          ∧ (o.SSL = none → r.SSLConfig = none))
      ∧ (∀ (x : Option customHostnameRow) (e : ε),
          (listCustomHostnames connect fuel d h).2 = some (x, some e) →
          connect d = .error e ∨ ∃ (conn : API ε) (p : Int), connect d = .ok conn
            ∧ conn.CustomHostnames h.Item.ID p CustomHostname.zero = .error e)
      ∧ (∀ (conn : API ε) (hs : List CustomHostname) (info : ResultInfo) (o : CustomHostname),
          connect d = .ok conn → 1 ≤ fuel →
          conn.CustomHostnames h.Item.ID 1 CustomHostname.zero = .ok (hs, info) →
          o ∈ hs → o.SSL = none →
          ∃ r ∈ streamedRows (listCustomHostnames connect fuel d h).1,
            r.ZoneID = h.Item.ID ∧ r.ID = o.ID ∧ r.Hostname = o.Hostname
              ∧ r.CustomOriginServer = o.CustomOriginServer ∧ r.Status = o.Status.val
              ∧ r.CreatedAt = o.CreatedAt ∧ r.SSLConfig = none) := by
  cases hconn : connect d with
  | error e0 =>
    have hrun : listCustomHostnames connect fuel d h
        = ([Event.logError "listCustomHostnames" "connection_error" e0],
            some (none, some e0)) := by
      simp only [listCustomHostnames, hconn]
    rw [hrun]
    refine ⟨?_, ?_, ?_⟩
    · intro r hr
      simp [streamedRows] at hr
    · intro x e he
      simp only [Option.some.injEq, Prod.mk.injEq] at he
      exact Or.inl (by rw [he.2])
    · intro conn hs info o hc
      cases hc
  | ok conn =>
    have hrun : listCustomHostnames connect fuel d h
        = listCustomHostnamesLoop conn h.Item fuel 1 := by
      simp only [listCustomHostnames, hconn]
    rw [hrun]
    refine ⟨?_, ?_, ?_⟩
    · intro r hr
      obtain ⟨p, hs, info, o, hp, ho, rfl⟩ := loop_streamed_rows conn h.Item fuel 1 r hr
      exact ⟨conn, p, hs, info, o, rfl, hp, ho, rfl, rfl, rfl, rfl, rfl, rfl, rfl, fun hn => hn⟩
    · intro x e he
      obtain ⟨p, hp⟩ := loop_error_origin conn h.Item fuel 1 x e he
      exact Or.inr ⟨conn, p, rfl, hp⟩
    · intro conn2 hs info o hc hfuel hpage ho hssl
      cases hc
      obtain ⟨f, rfl⟩ : ∃ f, fuel = f + 1 := ⟨fuel - 1, by omega⟩
      obtain ⟨rest, hrest⟩ := loop_first_page conn h.Item f 1 hs info hpage
      rw [hrest, streamedRows_append, streamedRows_pageEvents]
      refine ⟨expectedRow h.Item.ID o, ?_, rfl, rfl, rfl, rfl, rfl, rfl, hssl⟩
      exact List.mem_append.mpr (Or.inl (List.mem_map.mpr ⟨o, ho, rfl⟩))

/-- C7, run: the first row streamed for zone `zone-1` comes from object `h1`,
which has no SSL configuration. -/
theorem listCustomHostnames_rows_copy_api_objects_witness :
    ∃ (conn : API String) (p : Int) (hs : List CustomHostname) (info : ResultInfo)
      (o : CustomHostname),
      (.ok demoConn : Except String (API String)) = .ok conn
        ∧ conn.CustomHostnames "zone-1" p CustomHostname.zero = .ok (hs, info) ∧ o ∈ hs
        ∧ "zone-1" = "zone-1" ∧ "h1" = o.ID ∧ "a.example.com" = o.Hostname
        ∧ "origin.example.com" = o.CustomOriginServer ∧ "active" = o.Status.val
        ∧ some (⟨1700000000⟩ : Time) = o.CreatedAt ∧ none = o.SSL
        ∧ (o.SSL = none → (none : Option CustomHostnameSSL) = none) :=
  (listCustomHostnames_rows_copy_api_objects (fun _ => .ok demoConn) 3 demoQueryData
    demoHydrateData).1 (expectedRow "zone-1" (demoHost "h1" "a.example.com")) (List.Mem.head _)

/-- C8: if the connection is established, pages `1..k-1` are fetched without
error and without ending the loop, and the request for page `k ≥ 1` fails, then
by the time `listCustomHostnames` returns the error it has streamed exactly
the rows of pages `1..k-1`, in page order and within-page order (none when
`k = 1`), and no row of page `k` or of a later page. -/
theorem listCustomHostnames_streams_before_error {ε : Type}
    (connect : QueryData → Except ε (API ε)) (conn : API ε) (d : QueryData) (h : HydrateData)
    (content : Int → List CustomHostname) (T : Int → Int) (k fuel : Nat) (e : ε)
    (hconn : connect d = .ok conn) (hk : 1 ≤ k)
    (hpre : ∀ p : Nat, 1 ≤ p → p < k →
      conn.CustomHostnames h.Item.ID p CustomHostname.zero = .ok (content p, ⟨T p⟩)
        ∧ (p : Int) < T p ∧ T p ≤ maxInt)
    (hfail : conn.CustomHostnames h.Item.ID k CustomHostname.zero = .error e)
    (hfuel : k ≤ fuel) :
    (listCustomHostnames connect fuel d h).2 = some (none, some e)
      ∧ streamedRows (listCustomHostnames connect fuel d h).1
          = ((pageRange 1 (k - 1)).flatMap content).map (expectedRow h.Item.ID)
      ∧ (k = 1 → streamedRows (listCustomHostnames connect fuel d h).1 = []) := by
  obtain ⟨n, rfl⟩ : ∃ n, k = n + 1 := ⟨k - 1, by omega⟩
  obtain ⟨f, rfl⟩ : ∃ f, fuel = n + (f + 1) := ⟨fuel - (n + 1), by omega⟩
  have hrun := list_fail connect conn d h content T n f e hconn
    (fun i h1 h2 => hpre i h1 (by omega)) (by rw [show 1 + n = n + 1 by omega]; exact hfail)
  have hrows : streamedRows (listCustomHostnames connect (n + (f + 1)) d h).1
      = ((pageRange 1 n).flatMap content).map (expectedRow h.Item.ID) := by
    rw [hrun, streamedRows_append, streamedRows_flatMap]
    simp [streamedRows]
  refine ⟨by rw [hrun], by rw [hrows, Nat.add_sub_cancel], ?_⟩
  intro hk1
  have hn : n = 0 := by omega
  subst hn
  rw [hrows]
  rfl

/-- C8, run: pages 1 and 2 succeed, page 3 fails; the two rows of page 1 (page
2 is empty) have been streamed. -/
theorem listCustomHostnames_streams_before_error_witness :
    (listCustomHostnames (fun _ => .ok demoFailingConn) 3 demoQueryData demoHydrateData).2
        = some (none, some "rate limited")
      ∧ streamedRows
          (listCustomHostnames (fun _ => .ok demoFailingConn) 3 demoQueryData demoHydrateData).1
          = [expectedRow "zone-1" (demoHost "h1" "a.example.com"),
             expectedRow "zone-1" (demoHostSSL "h2" "b.example.com")]
      ∧ ((3 : Nat) = 1 → streamedRows
          (listCustomHostnames (fun _ => .ok demoFailingConn) 3 demoQueryData demoHydrateData).1
          = []) :=
  listCustomHostnames_streams_before_error (fun _ => .ok demoFailingConn) demoFailingConn
    demoQueryData demoHydrateData demoContent (fun _ => 5) 3 3 "rate limited" rfl (by decide)
    (fun p h1 h2 => by
      have hp : p = 1 ∨ p = 2 := by omega
      rcases hp with rfl | rfl <;> exact ⟨rfl, by decide, by decide⟩)
    rfl (by decide)

/-- C9: if the connection is established and every page request succeeds, the
response to page `p` reporting `TotalPages = T p` (any Go `int`: varying, zero
or negative), then there is a least page `pstar ≥ 1` with `pstar ≥ T pstar`;
with fuel for `pstar` iterations `listCustomHostnames` returns `(nil, nil)`
having requested exactly the pages `1..pstar`; page 1 is requested first in
every run of at least one iteration; if `T 1 ≤ 1` exactly one page is
requested; and if every `T p ≤ B` the run ends within `max 1 B` requests. -/
theorem listCustomHostnames_stops_at_first_last_page {ε : Type}
    (connect : QueryData → Except ε (API ε)) (conn : API ε) (d : QueryData) (h : HydrateData)
    (content : Int → List CustomHostname) (T : Int → Int)
    (hconn : connect d = .ok conn)
    (hpages : ∀ p : Int,
      conn.CustomHostnames h.Item.ID p CustomHostname.zero = .ok (content p, ⟨T p⟩))
    (hT : ∀ p : Int, T p ≤ maxInt) :
    ∃ pstar : Nat, 1 ≤ pstar ∧ T pstar ≤ pstar
      ∧ (∀ p : Nat, 1 ≤ p → p < pstar → (p : Int) < T p)
      ∧ (∀ fuel : Nat, pstar ≤ fuel →
          (listCustomHostnames connect fuel d h).2 = some (none, none)
            ∧ requestedPages (listCustomHostnames connect fuel d h).1 = pageRange 1 pstar)
      ∧ (∀ fuel : Nat, 1 ≤ fuel →
          (requestedPages (listCustomHostnames connect fuel d h).1).head? = some 1)
      ∧ (T 1 ≤ 1 → pstar = 1)
      ∧ (∀ B : Int, (∀ p : Int, T p ≤ B) →
          (listCustomHostnames connect (max 1 B).toNat d h).2 = some (none, none)
            ∧ ((requestedPages (listCustomHostnames connect (max 1 B).toNat d h).1).length : Int)
                ≤ max 1 B) := by
  have hmaxpos : (0 : Int) ≤ maxInt := by decide
  have hex : ∃ n : Nat, 1 ≤ n ∧ T n ≤ n := by
    refine ⟨maxInt.toNat, by decide, ?_⟩
    rw [Int.toNat_of_nonneg hmaxpos]
    exact hT _
  classical
  have hspec := Nat.find_spec hex
  have hmin : ∀ p : Nat, 1 ≤ p → p < Nat.find hex → (p : Int) < T p := by
    intro p hp1 hp2
    have := Nat.find_min hex hp2
    by_contra hcon
    exact this ⟨hp1, not_lt.mp hcon⟩
  have hrun : ∀ fuel : Nat, Nat.find hex ≤ fuel →
      (listCustomHostnames connect fuel d h).2 = some (none, none)
        ∧ requestedPages (listCustomHostnames connect fuel d h).1
            = pageRange 1 (Nat.find hex) := by
    intro fuel hfuel
    obtain ⟨n, hn⟩ : ∃ n, Nat.find hex = n + 1 := ⟨Nat.find hex - 1, by omega⟩
    obtain ⟨f, rfl⟩ : ∃ f, fuel = n + (f + 1) := ⟨fuel - (n + 1), by omega⟩
    have hlast : T ((1 + n : Nat) : Int) ≤ ((1 + n : Nat) : Int) := by
      rw [show 1 + n = Nat.find hex by omega]; exact hspec.2
    have hr := list_complete connect conn d h content T n f hconn
      (fun i h1 h2 => ⟨hpages i, hmin i h1 (by omega), hT i⟩) (hpages _) hlast
    rw [hr, hn]
    exact ⟨rfl, requestedPages_flatMap _ _ _⟩
  refine ⟨Nat.find hex, hspec.1, hspec.2, hmin, hrun, ?_, ?_, ?_⟩
  · intro fuel hfuel
    obtain ⟨f, rfl⟩ : ∃ f, fuel = f + 1 := ⟨fuel - 1, by omega⟩
    obtain ⟨rest, hrest⟩ := loop_first_page conn h.Item f 1 _ _ (hpages 1)
    have hl : listCustomHostnames connect (f + 1) d h
        = listCustomHostnamesLoop conn h.Item (f + 1) 1 := by
      simp only [listCustomHostnames, hconn]
    rw [hl, hrest, requestedPages_append, requestedPages_pageEvents]
    rfl
  · intro h1
    have := Nat.find_min' hex ⟨le_refl 1, by simpa using h1⟩
    omega
  · intro B hB
    have hle : (Nat.find hex : Int) ≤ max 1 B := by
      by_cases h1 : Nat.find hex = 1
      · rw [h1]; exact le_max_left _ _
      · have hp := hmin (Nat.find hex - 1) (by omega) (by omega)
        have hb := hB ((Nat.find hex - 1 : Nat) : Int)
        have : (Nat.find hex : Int) ≤ B := by omega
        exact le_trans this (le_max_right _ _)
    have hfuel : Nat.find hex ≤ (max 1 B).toNat := by
      have := Int.toNat_of_nonneg (le_trans (by decide : (0 : Int) ≤ 1) (le_max_left 1 B))
      omega
    obtain ⟨hres, hreq⟩ := hrun _ hfuel
    refine ⟨hres, ?_⟩
    rw [hreq]
    simpa [pageRange] using hle

/-- C9, run: the responses report 4 pages on page 1 and 0 pages on page 2, so
the least page that ends the loop is 2 and exactly pages 1 and 2 are
requested. -/
theorem listCustomHostnames_stops_at_first_last_page_witness :
    (listCustomHostnames (fun _ => .ok demoVaryingConn) 5 demoQueryData demoHydrateData).2
        = some (none, none)
      ∧ requestedPages
          (listCustomHostnames (fun _ => .ok demoVaryingConn) 5 demoQueryData demoHydrateData).1
          = [1, 2] := by
  obtain ⟨pstar, h1, h2, h3, h4, _⟩ :=
    listCustomHostnames_stops_at_first_last_page (fun _ => .ok demoVaryingConn) demoVaryingConn
      demoQueryData demoHydrateData demoContent
      (fun p => if p = 1 then 4 else if p = 2 then 0 else 9) rfl (fun _ => rfl)
      (fun p => by dsimp only; split_ifs <;> decide)
  have hp : pstar = 2 := by
    rcases Nat.lt_trichotomy pstar 2 with hlt | heq | hgt
    · have h11 : pstar = 1 := by omega
      subst h11
      simp at h2
    · exact heq
    · have := h3 2 (by decide) hgt
      simp at this
  subst hp
  exact h4 5 (by decide)

/-- In every run of the loop, whatever the client and the fuel, the streamed
rows are the row mapping applied, in order, to the objects of all requested
pages. -/
theorem loop_streamed_eq {ε : Type} (conn : API ε) (zone : Zone) (fuel : Nat) :
    ∀ page : Int,
      streamedRows (listCustomHostnamesLoop conn zone fuel page).1
        = ((requestedPages (listCustomHostnamesLoop conn zone fuel page).1).flatMap
            (pageObjects conn zone.ID)).map (expectedRow zone.ID) := by
  induction fuel with
  | zero => intro page; rfl
  | succ fuel ih =>
    intro page
    cases hres : conn.CustomHostnames zone.ID page CustomHostname.zero with
    | error e =>
      rw [loop_step_error conn zone fuel page e hres]
      simp [streamedRows, requestedPages, pageObjects, hres]
    | ok res =>
      obtain ⟨hs, info⟩ := res
      have hobj : pageObjects conn zone.ID page = hs := by simp [pageObjects, hres]
      rw [loop_step_ok conn zone fuel page hs info hres]
      split
      · rw [streamedRows_pageEvents, requestedPages_pageEvents]
        simp [hobj]
      · rw [streamedRows_append, requestedPages_append, streamedRows_pageEvents,
          requestedPages_pageEvents, ih]
        simp [hobj]

/-- The get path, answered with object `o` for zone identifier `zoneID`. -/
theorem get_ok_row {ε : Type} (connect : QueryData → Except ε (API ε)) (conn : API ε)
    (d : QueryData) (zoneID hostnameID : String) (o : CustomHostname)
    (hconn : connect d = .ok conn)
    (hzone : d.EqualsQuals "zone_id" = some (.StringValue zoneID))
    (hid : d.EqualsQuals "id" = some (.StringValue hostnameID))
    (hget : conn.CustomHostname zoneID hostnameID = .ok o) :
    getCustomHostname connect d
      = ([Event.getCall zoneID hostnameID], (some (expectedRow zoneID o), none)) := by
  simp only [getCustomHostname, hconn, hzone, hid, GetStringValue, hget]
  rfl

/-- C10: the list path and the get path build rows by the same mapping, on
every page.  In any run of `listCustomHostnames` for parent zone `z` (any
client, any fuel): every streamed row was built from an object `o` of a page
that the client returned, and is the row that `getCustomHostname` returns
whenever it is asked for zone_id `z.ID` and the client answers with `o`; and
there are as many streamed rows as objects received over all requested pages,
the row at position `i` being the get row of the object at position `i`. -/
theorem list_and_get_build_the_same_row {ε : Type}
    (connectL : QueryData → Except ε (API ε)) (fuel : Nat) (dL : QueryData)
    (h : HydrateData) :
    (∀ r ∈ streamedRows (listCustomHostnames connectL fuel dL h).1,
      ∃ (conn : API ε) (p : Int) (hs : List CustomHostname) (info : ResultInfo)
        (o : CustomHostname),
        connectL dL = .ok conn
          ∧ conn.CustomHostnames h.Item.ID p CustomHostname.zero = .ok (hs, info) ∧ o ∈ hs
          ∧ ∀ (connectG : QueryData → Except ε (API ε)) (connG : API ε) (dG : QueryData)
              (hostnameID : String),
              connectG dG = .ok connG →
              dG.EqualsQuals "zone_id" = some (.StringValue h.Item.ID) →
              dG.EqualsQuals "id" = some (.StringValue hostnameID) →
              connG.CustomHostname h.Item.ID hostnameID = .ok o →
              (getCustomHostname connectG dG).2 = (some r, none))
      ∧ (streamedRows (listCustomHostnames connectL fuel dL h).1).length
          = (fetchedObjects connectL dL h.Item.ID
              (listCustomHostnames connectL fuel dL h).1).length
      ∧ (∀ (i : Nat) (o : CustomHostname),
          (fetchedObjects connectL dL h.Item.ID
              (listCustomHostnames connectL fuel dL h).1)[i]? = some o →
          ∀ (connectG : QueryData → Except ε (API ε)) (connG : API ε) (dG : QueryData)
            (hostnameID : String),
            connectG dG = .ok connG →
            dG.EqualsQuals "zone_id" = some (.StringValue h.Item.ID) →
            dG.EqualsQuals "id" = some (.StringValue hostnameID) →
            connG.CustomHostname h.Item.ID hostnameID = .ok o →
            ∃ r : customHostnameRow,
              (streamedRows (listCustomHostnames connectL fuel dL h).1)[i]? = some r
                ∧ (getCustomHostname connectG dG).2 = (some r, none)) := by
  cases hconn : connectL dL with
  | error e0 =>
    have hrun : listCustomHostnames connectL fuel dL h
        = ([Event.logError "listCustomHostnames" "connection_error" e0],
            some (none, some e0)) := by
      simp only [listCustomHostnames, hconn]
    rw [hrun]
    refine ⟨?_, ?_, ?_⟩
    · intro r hr
      simp [streamedRows] at hr
    · simp [streamedRows, fetchedObjects, hconn]
    · intro i o hi
      simp [fetchedObjects, hconn] at hi
  | ok conn =>
    have hrun : listCustomHostnames connectL fuel dL h
        = listCustomHostnamesLoop conn h.Item fuel 1 := by
      simp only [listCustomHostnames, hconn]
    have hfetch : ∀ trace : List (Event ε), fetchedObjects connectL dL h.Item.ID trace
        = (requestedPages trace).flatMap (pageObjects conn h.Item.ID) := by
      intro trace
      simp only [fetchedObjects, hconn]
    have heq := loop_streamed_eq conn h.Item fuel 1
    rw [hrun]
    refine ⟨?_, ?_, ?_⟩
    · intro r hr
      obtain ⟨p, hs, info, o, hp, ho, rfl⟩ := loop_streamed_rows conn h.Item fuel 1 r hr
      refine ⟨conn, p, hs, info, o, rfl, hp, ho, ?_⟩
      intro connectG connG dG hostnameID hcg hzone hid hget
      rw [get_ok_row connectG connG dG h.Item.ID hostnameID o hcg hzone hid hget]
    · rw [hfetch, heq, List.length_map]
    · intro i o hi connectG connG dG hostnameID hcg hzone hid hget
      rw [hfetch] at hi
      refine ⟨expectedRow h.Item.ID o, ?_, ?_⟩
      · rw [heq, List.getElem?_map, hi]
        rfl
      · rw [get_ok_row connectG connG dG h.Item.ID hostnameID o hcg hzone hid hget]

/-- C10, run: object `h3` is the third object the list path receives for zone
`zone-1`, on page 3, and the get path is answered with `h3`: the third streamed
row is the row of the get path. -/
theorem list_and_get_build_the_same_row_witness :
    ∃ r : customHostnameRow,
      (streamedRows
          (listCustomHostnames (fun _ => .ok demoConn) 3 demoQueryData demoHydrateData).1)[2]?
          = some r
        ∧ (getCustomHostname (fun _ => .ok demoThirdConn) demoThirdQueryData).2
            = (some r, none) :=
  (list_and_get_build_the_same_row (fun _ => .ok demoConn) 3 demoQueryData
    demoHydrateData).2.2 2 (demoHost "h3" "c.example.com") rfl
    (fun _ => .ok demoThirdConn) demoThirdConn demoThirdQueryData "h3" rfl rfl rfl rfl

end Cloudflare
